import Mathlib

/-!
Verification development for the AB3DMOT streaming-adapter subsystem:
the detection normalizer, the real-time tracker session wrapper, the
live-streaming component resilience logic, and the CSV result exporter.

Shallow embedding conventions:
* numpy scalars are modelled as rationals (`ℚ`);
* a 2-D numpy array is a `Mat2`: an explicit column count (`cols`, the
  value of `shape[1]`, meaningful even for zero rows) plus a list of rows;
* a 1-D numpy array is a plain `List ℚ`;
* Python exceptions are modelled with `Except`/`Option`;
* wall-clock time is a rational number;
* the external AB3DMOT tracking core (`AB3DMOT_libs.model`, out of scope
  per the spec) is an oracle parameter: its outcome — per-hypothesis
  result rows, or a raised fault — is supplied as an `Except` value.
-/

namespace AB3DMOT

/-- A 2-D numeric buffer: rows of rationals. -/
abbrev Mat : Type := List (List ℚ)

/-- A 2-D numpy array: the column count (`shape[1]`) and the rows.
A well-formed array has every row of length `cols`. -/
structure Mat2 where
  cols : ℕ
  rows : Mat
deriving DecidableEq

/-- A numpy array argument: either 1-D or 2-D. -/
inductive Arr where
  | one : List ℚ → Arr
  | two : Mat2 → Arr
deriving DecidableEq

/-- An incoming detection payload: either a dictionary carrying the
`dets` and `info` fields, or a bare numpy array. -/
inductive Payload where
  | dict : Arr → Arr → Payload
  | arr : Arr → Payload
deriving DecidableEq

/-- The canonical parsed frame payload `{dets, info}` together with the
numpy column counts of both arrays (`shape[1]`). -/
structure DetsAll where
  detsCols : ℕ
  dets : Mat
  infoCols : ℕ
  info : Mat
deriving DecidableEq

/-- Fuel-bounded worker for `chunk8`; the fuel is an upper bound on the
list length, so it never runs out. -/
def chunk8Go : ℕ → List ℚ → Mat
  | 0, _ => []
  | _, [] => []
  | fuel + 1, x :: xs => ((x :: xs).take 8) :: chunk8Go fuel (xs.drop 7)

/-- Split a flat list into consecutive chunks of 8 elements
(`input_data.reshape(num_detections, 8)`). -/
def chunk8 (l : List ℚ) : Mat := chunk8Go l.length l

/-- Source `_generate_default_info`: per detection row, the info row is
`[ori, 0, 0, 0, 0, type_id, score]` where `ori` is the detection yaw
(column 6) and the scores default to 1.0 when absent. -/
def generateDefaultInfo (typeId : ℚ) (dets : Mat) (scores : Option (List ℚ)) : Mat :=
  let sc := scores.getD (List.replicate dets.length 1)
  (dets.zip sc).map (fun p => [p.1.getD 6 0, 0, 0, 0, 0, typeId, p.2])

/-- Column-count dispatch of `_parse_detection_input` after the reshape
normalizations: (N,7), (N,8), (N,15), otherwise take the first 7 columns. -/
def dispatchCols (typeId : ℚ) (m : Mat2) : DetsAll :=
  if m.cols = 7 then
    ⟨7, m.rows, 7, generateDefaultInfo typeId m.rows none⟩
  else if m.cols = 8 then
    let dets := m.rows.map (fun r => r.take 7)
    let scores := m.rows.map (fun r => r.getD 7 0)
    ⟨7, dets, 7, generateDefaultInfo typeId dets (some scores)⟩
  else if m.cols = 15 then
    ⟨7, m.rows.map (fun r => (r.drop 6).take 7), 7,
      m.rows.map (fun r =>
        r.getD 13 0 :: (((r.drop 1).take 4) ++ [typeId, r.getD 14 0]))⟩
  else
    let dets := m.rows.map (fun r => r.take 7)
    ⟨min m.cols 7, dets, 7, generateDefaultInfo typeId dets none⟩

/-- The empty `{dets: (0,7), info: (0,7)}` payload. -/
def emptyDetsAll : DetsAll := ⟨7, [], 7, []⟩

/-- The ndarray branch of `_parse_detection_input` (live component):
empty first-dimension short-circuits; a `(1, 8k)` 2-D array and a 1-D
array of length `8k` are reshaped to `(k, 8)`; any other 1-D array
becomes a single row; then dispatch on the column count. -/
def parseArr (typeId : ℚ) (a : Arr) : DetsAll :=
  match a with
  | .one v =>
    if v.length = 0 then emptyDetsAll
    else if v.length % 8 = 0 then dispatchCols typeId ⟨8, chunk8 v⟩
    else dispatchCols typeId ⟨v.length, [v]⟩
  | .two m =>
    if m.rows.length = 0 then emptyDetsAll
    else if m.rows.length = 1 ∧ m.cols % 8 = 0 then
      dispatchCols typeId ⟨8, chunk8 (m.rows.headD [])⟩
    else dispatchCols typeId m

/-- Lift a dictionary field to 2-D: a 1-D value is reshaped to one row. -/
def dictFieldToMat2 (a : Arr) : Mat2 :=
  match a with
  | .one v => ⟨v.length, [v]⟩
  | .two m => m

/-- Source `_parse_detection_input` of the live-streaming component: a
dict exposing `dets`/`info` is used as-is (after 1-D→2-D reshape); a
numpy array goes through the shape dispatch. -/
def parseDetectionInput (typeId : ℚ) (p : Payload) : DetsAll :=
  match p with
  | .dict d i =>
    let dm := dictFieldToMat2 d
    let im := dictFieldToMat2 i
    ⟨dm.cols, dm.rows, im.cols, im.rows⟩
  | .arr a => parseArr typeId a

/-- The 3D dimension fields (height, width, length: the first three
entries of each canonical detection row) are all non-negative. -/
def dimsNonneg (dets : Mat) : Prop :=
  ∀ r ∈ dets, 0 ≤ r.getD 0 0 ∧ 0 ≤ r.getD 1 0 ∧ 0 ≤ r.getD 2 0

/-- The 3D dimension entries of a supported 2-D input row: columns 0-2
for the 7- and 8-column layouts, columns 6-8 for the 15-column KITTI
schema (where the 3D block sits at offsets 6-12). -/
def inputDimsNonneg (m : Mat2) : Prop :=
  ∀ r ∈ m.rows,
    if m.cols = 15 then 0 ≤ r.getD 6 0 ∧ 0 ≤ r.getD 7 0 ∧ 0 ≤ r.getD 8 0
    else 0 ≤ r.getD 0 0 ∧ 0 ≤ r.getD 1 0 ∧ 0 ≤ r.getD 2 0

/-- The 3D dimension entries of a flattened 1-D buffer: the first three
positions of every 8-value logical object, i.e. indices 8i, 8i+1,
8i+2. -/
def flatDimsNonneg (v : List ℚ) : Prop :=
  ∀ i : ℕ, 0 ≤ v.getD (8*i) 0 ∧ 0 ≤ v.getD (8*i + 1) 0 ∧ 0 ≤ v.getD (8*i + 2) 0

instance (dets : Mat) : Decidable (dimsNonneg dets) := by
  unfold dimsNonneg; infer_instance

instance (m : Mat2) : Decidable (inputDimsNonneg m) := by
  unfold inputDimsNonneg; infer_instance

/-- The KITTI `det_id2str` category mapping of `RealtimeTracker`. -/
def kittiId2Str (q : ℚ) : Option String :=
  if q = 1 then some "Pedestrian"
  else if q = 2 then some "Car"
  else if q = 3 then some "Cyclist"
  else none

/-! ### Real-time tracker session wrapper (`realtime_tracker.py`) -/

/-- The session state of `RealtimeTracker` relevant to frame counting:
its internal `frame_count`, starting at 0 on construction. -/
structure RTTracker where
  frameCount : ℕ
deriving DecidableEq

/-- A freshly constructed `RealtimeTracker` instance. -/
def rtInit : RTTracker := ⟨0⟩

/-- `RealtimeTracker.reset`: clears the track registry and zeroes both
the core frame counter and the wrapper frame counter. -/
def rtReset (_s : RTTracker) : RTTracker := ⟨0⟩

/-- Faults `track_frame` can raise: the explicit `ValueError` on an
unsupported detection shape, or a fault propagated from the core call. -/
inductive TFErr where
  | invalidShape
  | coreFault
deriving DecidableEq

/-- Result extraction at the end of `track_frame`: the first hypothesis
list if present and non-empty, else the empty `(0, 15)` result. -/
def extractResults (results : List Mat) : Mat :=
  match results with
  | [] => []
  | h :: _ => if 0 < h.length then h else []

/-- Whether the oracle core call succeeded. -/
def coreOk : Except Unit (List Mat) → Bool
  | .ok _ => true
  | .error _ => false

/-- `RealtimeTracker.track_frame`: empty detections are tracked as an
empty `(0,7)` frame; shape `(N,8)` strips the score column, `(N,7)` uses
default scores, anything else raises `ValueError`; the external core is
then invoked (oracle `core`); only on success is the internal frame
counter incremented, and the first hypothesis result list returned. -/
def trackFrame (s : RTTracker) (dets : Mat2) (frameIdx : Option ℤ)
    (core : Except Unit (List Mat)) : Except TFErr (RTTracker × Mat) :=
  let _fi : ℤ := frameIdx.getD (s.frameCount : ℤ)
  if dets.rows.length = 0 then
    match core with
    | .error _ => .error .coreFault
    | .ok results => .ok (⟨s.frameCount + 1⟩, extractResults results)
  else if dets.cols = 8 ∨ dets.cols = 7 then
    match core with
    | .error _ => .error .coreFault
    | .ok results => .ok (⟨s.frameCount + 1⟩, extractResults results)
  else
    .error .invalidShape

/-- One batch call to `track_frame`: the detections, the optional
explicit frame index, and the oracle outcome of the external core. -/
structure FrameCall where
  dets : Mat2
  frameIdx : Option ℤ
  core : Except Unit (List Mat)

/-- A call is fault-free: supported detection shape and core success. -/
def callOk (c : FrameCall) : Prop :=
  (c.dets.rows.length = 0 ∨ c.dets.cols = 8 ∨ c.dets.cols = 7) ∧ coreOk c.core = true

instance (c : FrameCall) : Decidable (callOk c) := by
  unfold callOk; infer_instance

/-- The tracker state after one call: unchanged when the call raises
(the counter increment sits after every fallible statement). -/
def stepFrame (s : RTTracker) (c : FrameCall) : RTTracker :=
  match trackFrame s c.dets c.frameIdx c.core with
  | .ok (s2, _) => s2
  | .error _ => s

/-- Run a sequence of `track_frame` calls. -/
def runFrames : RTTracker → List FrameCall → RTTracker
  | s, [] => s
  | s, c :: cs => runFrames (stepFrame s c) cs

/-! ### Live-streaming component (`rtmaps_components/rtmaps_ab3dmot_tracker.py`) -/

/-- Mutable state of the live component (`rtmaps_python`): the
consecutive-error counter and its configured maximum, the rate-limiter
clock, the component frame counter, the category type id, and the owned
`RealtimeTracker` instance (with an instantiation generation counter to
record wholesale replacement). -/
structure CoreState where
  errorCount : ℕ
  maxErrors : ℕ
  lastProcessTime : ℚ
  minProcessInterval : ℚ
  frameCount : ℕ
  typeId : ℚ
  tracker : RTTracker
  trackerGen : ℕ
deriving DecidableEq

/-- One `Core()` invocation viewed from outside: the wall-clock time,
whether the detections input carries data, the optional explicit frame
index, the payload, and two fault oracles — `outerFault` for an
exception raised in the unguarded body (caught by the outermost
handler), `trackingFault` for a fault raised inside the tracking
invocation (caught by the inner handler). -/
structure FrameInput where
  time : ℚ
  hasData : Bool
  frameIdx : Option ℤ
  payload : Payload
  outerFault : Bool
  trackingFault : Bool
deriving DecidableEq

/-- Which branch one `Core()` invocation took. -/
inductive StepKind where
  | rateDropped
  | breakerSkipped
  | noData
  | outerErrored
  | processed
deriving DecidableEq

/-- Result of one `Core()` invocation: the new state, the value written
to the `tracks` output (`none` when nothing was written), the frame
index used for this frame's records, and the branch taken. -/
structure StepResult where
  state : CoreState
  tracksOut : Option Mat
  usedFrameIdx : Option ℤ
  kind : StepKind
deriving DecidableEq

/-- `_simple_tracking_fallback`: one result row per detection,
`[h,w,l,x,y,z,theta, frame_idx*100+i, ori, type_id, bbox2d(4), conf]`;
its internal handler converts any unpacking failure (a row not of
length 7) into the empty result. -/
def simpleTrackingFallback (dets info : Mat) (frameIdx : ℤ) : Mat :=
  if dets.length = 0 then []
  else if dets.all (fun r => r.length == 7) && info.all (fun r => r.length == 7) then
    (dets.zip info).enum.map (fun p =>
      p.2.1 ++ [(frameIdx : ℚ) * 100 + (p.1 : ℚ),
        p.2.2.getD 0 0, p.2.2.getD 5 0,
        p.2.2.getD 1 0, p.2.2.getD 2 0, p.2.2.getD 3 0, p.2.2.getD 4 0,
        p.2.2.getD 6 0])
  else []

/-- The three layered output guards of `Core()`: truncate to at most one
row, force empty if still larger, and the final pre-write guard. -/
def outputGuard (rs : Mat) : Mat :=
  let r1 := if 1 < rs.length then rs.take 1 else rs
  let r2 := if 1 < r1.length then ([] : Mat) else r1
  if 1 < r2.length then [] else r2

/-- The tracking block of `Core()`: shape validation of the parsed
payload (both column counts must be 7), then the guarded tracking
invocation — a fault there is recovered as the empty result. -/
def coreTrackingResults (s : CoreState) (inp : FrameInput) (frameIdx : ℤ) : Mat :=
  let detsData := parseDetectionInput s.typeId inp.payload
  if detsData.detsCols ≠ 7 then []
  else if detsData.infoCols ≠ 7 then []
  else if inp.trackingFault then []
  else simpleTrackingFallback detsData.dets detsData.info frameIdx

/-- The successful tail of `Core()`: parse, validate, track, guard the
output, update the rate-limiter clock and frame counter, and perform the
periodic (every 100 processed frames) wholesale tracker re-instantiation. -/
def coreProcess (s : CoreState) (inp : FrameInput) : StepResult :=
  let frameIdx : ℤ := inp.frameIdx.getD (s.frameCount : ℤ)
  let out := outputGuard (coreTrackingResults s inp frameIdx)
  let fc := s.frameCount + 1
  let s2 : CoreState :=
    if fc % 100 = 0 then
      { s with lastProcessTime := inp.time, frameCount := fc,
               tracker := rtInit, trackerGen := s.trackerGen + 1 }
    else
      { s with lastProcessTime := inp.time, frameCount := fc }
  ⟨s2, some out, some frameIdx, .processed⟩

/-- One `Core()` invocation of the live component, in source order:
rate-limit check, circuit-breaker check, unconditional reset of the
error counter, missing-data check, the (outer-fault-guarded) body. An
outer fault writes the empty result and bumps the error counter. -/
def coreStep (s : CoreState) (inp : FrameInput) : StepResult :=
  if inp.time - s.lastProcessTime < s.minProcessInterval then
    ⟨s, none, none, .rateDropped⟩
  else if s.maxErrors ≤ s.errorCount then
    ⟨s, none, none, .breakerSkipped⟩
  else if inp.hasData = false then
    ⟨{ s with errorCount := 0 }, none, none, .noData⟩
  else if inp.outerFault then
    ⟨{ s with errorCount := 1 }, some [], none, .outerErrored⟩
  else
    coreProcess { s with errorCount := 0 } inp

/-- Run a sequence of `Core()` invocations, collecting the branch taken
at each frame. -/
def runCore : CoreState → List FrameInput → CoreState × List StepKind
  | s, [] => (s, [])
  | s, inp :: rest =>
    let r := coreStep s inp
    let p := runCore r.state rest
    (p.1, r.kind :: p.2)

/-- The component state right after `Birth()`: error counter 0, minimum
interval `1/max_fps` (or the 0.01 fallback), frame counter 0, and the
first `RealtimeTracker` instance. -/
def coreInitState (maxFps : ℚ) (maxErrors : ℕ) (typeId : ℚ) : CoreState :=
  { errorCount := 0
    maxErrors := maxErrors
    lastProcessTime := 0
    minProcessInterval := if 0 < maxFps then 1 / maxFps else 1 / 100
    frameCount := 0
    typeId := typeId
    tracker := rtInit
    trackerGen := 1 }

/-! ### CSV result exporter (`AB3DMOT_libs/csv_export.py`) -/

/-- A CSV cell as handed to `csv.writer.writerow`: a Python int, float,
or string. -/
inductive Cell where
  | i : ℤ → Cell
  | q : ℚ → Cell
  | s : String → Cell
deriving DecidableEq

/-- `CSVExporter.get_csv_header`: the fixed 18 column names. -/
def csvHeader : List String :=
  ["frame", "track_id", "object_type", "truncated", "occluded", "alpha",
   "bbox_left", "bbox_top", "bbox_right", "bbox_bottom",
   "height_3d", "width_3d", "length_3d", "x_3d", "y_3d", "z_3d",
   "rotation_y", "confidence_score"]

/-- The header row as written to each sink. -/
def headerCells : List Cell := csvHeader.map Cell.s

/-- The per-hypothesis per-sequence file name
`tracking_results_H{hypo}_{seq_name}.csv`. -/
def csvFilename (hypo : ℕ) (seqName : String) : String :=
  "tracking_results_H" ++ toString hypo ++ "_" ++ seqName ++ ".csv"

/-- The encoding passed to `open` for every sink. -/
def csvEncoding : String := "utf-8"

/-- Python `int()` on a rational: truncation toward zero. -/
def ratTrunc (x : ℚ) : ℤ := x.num / (x.den : ℤ)

/-- One open CSV sink: its file name and its written rows. -/
structure CSVFile where
  name : String
  rows : List (List Cell)
deriving DecidableEq

/-- The `CSVExporter` state: target directory, hypothesis count, and the
open sinks keyed by hypothesis index. -/
structure CSVExporterState where
  saveDir : String
  numHypo : ℕ
  files : List (ℕ × CSVFile)
deriving DecidableEq

/-- `CSVExporter.close_files`: drops all open sinks. -/
def closeFiles (st : CSVExporterState) : CSVExporterState :=
  { st with files := [] }

/-- `CSVExporter.init_sequence_files`: closes existing sinks, then opens
one sink per hypothesis with the header row already written. -/
def initSequenceFiles (st : CSVExporterState) (seqName : String) : CSVExporterState :=
  { closeFiles st with
    files := (List.range st.numHypo).map
      (fun h => (h, ⟨csvFilename h seqName, [headerCells]⟩)) }

/-- The data row built by `export_result` from a 15-field tracking
result: `[frame, int(id), type, 0, 0, alpha, bbox2d(4), bbox3d(7), conf]`,
with the `truncated`/`occluded` placeholders written as 0 and the
confidence copied verbatim from field 14. -/
def mkCsvRow (result : List ℚ) (typeStr : String) (frame : ℤ) : List Cell :=
  [.i frame, .i (ratTrunc (result.getD 7 0)), .s typeStr, .i 0, .i 0,
   .q (result.getD 8 0),
   .q (result.getD 10 0), .q (result.getD 11 0), .q (result.getD 12 0),
   .q (result.getD 13 0),
   .q (result.getD 0 0), .q (result.getD 1 0), .q (result.getD 2 0),
   .q (result.getD 3 0), .q (result.getD 4 0), .q (result.getD 5 0),
   .q (result.getD 6 0),
   .q (result.getD 14 0)]

/-- Replace the sink stored under a hypothesis index. -/
def updateFile (st : CSVExporterState) (hypo : ℕ) (f : CSVFile) : CSVExporterState :=
  { st with files := st.files.map (fun p => if p.1 = hypo then (p.1, f) else p) }

/-- Dictionary lookup on the sink table (`hypo in self.csv_writers` /
`self.csv_writers[hypo]`). -/
def findFile : List (ℕ × CSVFile) → ℕ → Option CSVFile
  | [], _ => none
  | p :: rest, h => if p.1 = h then some p.2 else findFile rest h

/-- `CSVExporter.export_result`: skip silently when the hypothesis has
no sink; resolve the category string (a missing mapping key raises,
modelled as `none`); then append exactly one row iff the confidence
(field 14) is ≥ the threshold. -/
def exportResult (st : CSVExporterState) (result : List ℚ) (hypo : ℕ)
    (detId2Str : ℚ → Option String) (frame : ℤ) (scoreThreshold : ℚ) :
    Option CSVExporterState :=
  match findFile st.files hypo with
  | none => some st
  | some file =>
    match detId2Str (result.getD 9 0) with
    | none => none
    | some typeStr =>
      if scoreThreshold ≤ result.getD 14 0 then
        some (updateFile st hypo ⟨file.name, file.rows ++ [mkCsvRow result typeStr frame]⟩)
      else
        some st

/-- One `export_result` call. -/
structure ExportCall where
  result : List ℚ
  hypo : ℕ
  detId2Str : ℚ → Option String
  frame : ℤ
  threshold : ℚ

/-- Run a sequence of `export_result` calls; a raised lookup fault
aborts the run. -/
def runExports : CSVExporterState → List ExportCall → Option CSVExporterState
  | st, [] => some st
  | st, c :: cs =>
    match exportResult st c.result c.hypo c.detId2Str c.frame c.threshold with
    | none => none
    | some st2 => runExports st2 cs

/-! ### Demonstration values used by witnesses and counterexamples -/

/-- A demonstration 2-D `(2, 8)` detection array: non-negative
dimensions (columns 0-2) but negative position coordinates. -/
def c3DemoMat : Mat2 := ⟨8, [[1,2,3,-4,5,-6,7,1],[2,2,2,1,-1,1,1,1]]⟩

/-- A demonstration flattened 1-D buffer of 16 values (two objects) with
non-negative dimension slots but negative coordinates elsewhere. -/
def c3DemoVec : List ℚ := [1,1,1,-2,2,-2,3,1,4,4,4,-5,5,5,-6,1]

/-- Demonstration `track_frame` call with one `(1, 7)` detection and a
successful core returning no hypothesis results. -/
def c8DemoCall1 : FrameCall := ⟨⟨7, [[1,1,1,0,0,0,0]]⟩, none, .ok []⟩

/-- Demonstration `track_frame` call with an empty detection set, an
explicit frame-index override, and one hypothesis result row. -/
def c8DemoCall2 : FrameCall :=
  ⟨⟨7, []⟩, some 42, .ok [[[1,1,1,0,0,0,0,0,0,2,0,0,0,0,1]]]⟩

/-- Demonstration state for C1: a tracker component configured with
`max_errors = 2`. -/
def c1DemoState : CoreState := coreInitState 1 2 2

/-- Demonstration inputs for C1: three consecutive frames whose tracking
invocation faults every time. -/
def c1DemoInputs : List FrameInput :=
  [⟨1, true, none, .arr (.two ⟨7, [[1,1,1,0,0,0,0]]⟩), false, true⟩,
   ⟨2, true, none, .arr (.two ⟨7, [[1,1,1,0,0,0,0]]⟩), false, true⟩,
   ⟨3, true, none, .arr (.two ⟨7, [[1,1,1,0,0,0,0]]⟩), false, true⟩]

/-- Demonstration state for C2: a live component with minimum interval
1 and 99 frames already processed. -/
def c2DemoState : CoreState := ⟨0, 10, 0, 1, 99, 2, rtInit, 1⟩

/-- Demonstration input for C2: a well-formed frame at time 1. -/
def c2DemoInput : FrameInput := ⟨1, true, none, .arr (.two ⟨7, []⟩), false, false⟩

/-- Demonstration second input for C2: a frame at time 2. -/
def c2DemoInput2 : FrameInput := ⟨2, true, none, .arr (.two ⟨7, []⟩), false, false⟩

/-- Demonstration state for C4: live component, minimum interval 1. -/
def c4DemoState : CoreState := ⟨0, 10, 0, 1, 0, 2, rtInit, 1⟩

/-- Demonstration input for C4: a well-formed frame whose tracking
invocation faults. -/
def c4DemoInput : FrameInput := ⟨1, true, none, .arr (.two ⟨7, [[1,1,1,0,0,0,0]]⟩), false, true⟩

/-- Demonstration state for C5: live component with minimum interval 3. -/
def c5DemoState : CoreState := ⟨0, 10, 0, 3, 0, 2, rtInit, 1⟩

/-- Demonstration frame for C5 at a given wall-clock time. -/
def c5Frame (t : ℚ) : FrameInput := ⟨t, true, none, .arr (.two ⟨7, []⟩), false, false⟩

/-- Demonstration state for C10. -/
def c10DemoState : CoreState := ⟨0, 10, 0, 1, 0, 2, rtInit, 1⟩

/-- Demonstration input for C10: two detections in one frame. -/
def c10DemoInput : FrameInput :=
  ⟨1, true, none, .arr (.two ⟨7, [[1,2,3,4,5,6,7],[8,9,10,11,12,13,14]]⟩), false, false⟩

/-- The per-sink invariant preserved by every successful export call:
the sink exists under its hypothesis index, has the fixed file name, its
first row is the header, and every data row carries the `truncated` and
`occluded` placeholders as 0. -/
def sinkInv (seqName : String) (hypo : ℕ) (st : CSVExporterState) : Prop :=
  ∃ file, findFile st.files hypo = some file
    ∧ file.name = csvFilename hypo seqName
    ∧ file.rows ≠ []
    ∧ file.rows.headD [] = headerCells
    ∧ ∀ row ∈ file.rows.tail, row.getD 3 (.q 0) = Cell.i 0 ∧ row.getD 4 (.q 0) = Cell.i 0

/-- Demonstration exporter state for C6: one hypothesis, sequence
label 0001, sink freshly opened. -/
def c6DemoState : CSVExporterState := initSequenceFiles ⟨"out", 1, []⟩ "0001"

/-- Demonstration tracking result for C6 with confidence 9/10. -/
def c6DemoResult : List ℚ :=
  [1, 1, 4, 10, 0, 30, 0, 3, 0, 2, 0, 0, 0, 0, mkRat 9 10]

/-- Demonstration export call for C7: one exported result to
hypothesis 0 with confidence above threshold. -/
def c7DemoCall : ExportCall := ⟨c6DemoResult, 0, kittiId2Str, 0, mkRat 1 2⟩

end AB3DMOT

/-! ## Helper lemmas -/

namespace AB3DMOT

theorem chunk8Go_length (fuel : ℕ) :
    ∀ l : List ℚ, l.length ≤ fuel → l.length % 8 = 0 →
      (chunk8Go fuel l).length = l.length / 8 := by
  induction fuel with
  | zero =>
    intro l hle _
    have : l = [] := List.eq_nil_of_length_eq_zero (Nat.le_zero.mp hle)
    subst this
    simp [chunk8Go]
  | succ fuel ih =>
    intro l hle h
    match l with
    | [] => simp [chunk8Go]
    | x :: xs =>
      rw [List.length_cons] at h hle
      rw [chunk8Go]
      have hlen : (xs.drop 7).length = xs.length - 7 := by simp
      have h8 : 7 ≤ xs.length := by omega
      have hmod : (xs.drop 7).length % 8 = 0 := by rw [hlen]; omega
      have hfu : (xs.drop 7).length ≤ fuel := by rw [hlen]; omega
      rw [List.length_cons, ih _ hfu hmod, hlen, List.length_cons]
      omega

theorem chunk8_length (l : List ℚ) : l.length % 8 = 0 →
    (chunk8 l).length = l.length / 8 :=
  chunk8Go_length l.length l (Nat.le_refl _)

theorem chunk8Go_mem (fuel : ℕ) :
    ∀ {l r : List ℚ}, r ∈ chunk8Go fuel l → ∀ x ∈ r, x ∈ l := by
  induction fuel with
  | zero => intro l r hr; simp [chunk8Go] at hr
  | succ fuel ih =>
    intro l r hr
    match l with
    | [] => simp [chunk8Go] at hr
    | x :: xs =>
      rw [chunk8Go] at hr
      rcases List.mem_cons.mp hr with h | h
      · intro y hy
        subst h
        exact List.take_subset _ _ hy
      · intro y hy
        have := ih h y hy
        exact List.mem_cons_of_mem x (List.drop_subset _ _ this)

theorem chunk8_mem {l : List ℚ} {r : List ℚ} (hr : r ∈ chunk8 l) :
    ∀ x ∈ r, x ∈ l :=
  chunk8Go_mem l.length hr

theorem getD_take {α : Type} (l : List α) (n j : ℕ) (d : α) (h : j < n) :
    (l.take n).getD j d = l.getD j d := by
  rcases Nat.lt_or_ge j l.length with hj | hj
  · have h1 : j < (l.take n).length := by
      rw [List.length_take]; omega
    rw [List.getD_eq_getElem _ _ h1, List.getD_eq_getElem _ _ hj]
    exact List.getElem_take l
  · have h1 : (l.take n).length ≤ j := by
      rw [List.length_take]; omega
    rw [List.getD_eq_default _ _ h1, List.getD_eq_default _ _ hj]

theorem getD_drop {α : Type} (l : List α) (m k : ℕ) (d : α) :
    (l.drop m).getD k d = l.getD (m + k) d := by
  rcases Nat.lt_or_ge (m + k) l.length with hj | hj
  · have h1 : k < (l.drop m).length := by
      rw [List.length_drop]; omega
    rw [List.getD_eq_getElem _ _ h1, List.getD_eq_getElem _ _ hj]
    exact List.getElem_drop l
  · have h1 : (l.drop m).length ≤ k := by
      rw [List.length_drop]; omega
    rw [List.getD_eq_default _ _ h1, List.getD_eq_default _ _ hj]

theorem dispatchCols_dims (t : ℚ) (m : Mat2) (h : inputDimsNonneg m) :
    dimsNonneg (dispatchCols t m).dets := by
  unfold dispatchCols
  by_cases h7 : m.cols = 7
  · rw [if_pos h7]
    intro r hr
    have hh := h r hr
    rw [if_neg (by omega : ¬ m.cols = 15)] at hh
    exact hh
  · rw [if_neg h7]
    by_cases h8 : m.cols = 8
    · rw [if_pos h8]
      intro r hr
      simp only [List.mem_map] at hr
      obtain ⟨r0, hr0, rfl⟩ := hr
      have hh := h r0 hr0
      rw [if_neg (by omega : ¬ m.cols = 15)] at hh
      refine ⟨?_, ?_, ?_⟩
      · rw [getD_take _ _ _ _ (by omega)]; exact hh.1
      · rw [getD_take _ _ _ _ (by omega)]; exact hh.2.1
      · rw [getD_take _ _ _ _ (by omega)]; exact hh.2.2
    · rw [if_neg h8]
      by_cases h15 : m.cols = 15
      · rw [if_pos h15]
        intro r hr
        simp only [List.mem_map] at hr
        obtain ⟨r0, hr0, rfl⟩ := hr
        have hh := h r0 hr0
        rw [if_pos h15] at hh
        refine ⟨?_, ?_, ?_⟩
        · rw [getD_take _ _ _ _ (by omega), getD_drop]; exact hh.1
        · rw [getD_take _ _ _ _ (by omega), getD_drop]; exact hh.2.1
        · rw [getD_take _ _ _ _ (by omega), getD_drop]; exact hh.2.2
      · rw [if_neg h15]
        intro r hr
        simp only [List.mem_map] at hr
        obtain ⟨r0, hr0, rfl⟩ := hr
        have hh := h r0 hr0
        rw [if_neg h15] at hh
        refine ⟨?_, ?_, ?_⟩
        · rw [getD_take _ _ _ _ (by omega)]; exact hh.1
        · rw [getD_take _ _ _ _ (by omega)]; exact hh.2.1
        · rw [getD_take _ _ _ _ (by omega)]; exact hh.2.2

theorem dispatchCols_length (t : ℚ) (m : Mat2)
    (hc : m.cols = 7 ∨ m.cols = 8 ∨ m.cols = 15) :
    (dispatchCols t m).dets.length = m.rows.length := by
  unfold dispatchCols
  rcases hc with hc | hc | hc <;> simp [hc]

theorem chunk8_of_length_eight (l : List ℚ) (h : l.length = 8) :
    chunk8 l = [l] := by
  cases l with
  | nil => simp at h
  | cons x xs =>
    have hx : xs.length = 7 := by
      rw [List.length_cons] at h; omega
    show chunk8Go (x :: xs).length (x :: xs) = [x :: xs]
    rw [List.length_cons, hx]
    show ((x :: xs).take 8) :: chunk8Go 7 (xs.drop 7) = [x :: xs]
    rw [List.drop_eq_nil_of_le (by omega)]
    rw [List.take_of_length_le (by simp [hx])]
    rfl

theorem chunk8Go_dims (fuel : ℕ) :
    ∀ v : List ℚ, v.length ≤ fuel → flatDimsNonneg v →
      dimsNonneg (chunk8Go fuel v) := by
  induction fuel with
  | zero =>
    intro v _ _ r hr
    simp [chunk8Go] at hr
  | succ fuel ih =>
    intro v hle h
    cases v with
    | nil =>
      intro r hr
      simp [chunk8Go] at hr
    | cons x xs =>
      intro r hr
      rw [chunk8Go] at hr
      rcases List.mem_cons.mp hr with he | ht
      · subst he
        have h0 := h 0
        refine ⟨?_, ?_, ?_⟩
        · rw [getD_take _ _ _ _ (by omega)]; exact h0.1
        · rw [getD_take _ _ _ _ (by omega)]; exact h0.2.1
        · rw [getD_take _ _ _ _ (by omega)]; exact h0.2.2
      · refine ih (xs.drop 7) ?_ ?_ r ht
        · rw [List.length_drop]
          rw [List.length_cons] at hle
          omega
        · intro i
          have hi := h (i + 1)
          have e0 : (xs.drop 7).getD (8*i) 0 = (x :: xs).getD (8*(i+1)) 0 := by
            rw [getD_drop]
            have e : 8 * (i+1) = (7 + 8*i) + 1 := by ring
            rw [e, List.getD_cons_succ]
          have e1 : (xs.drop 7).getD (8*i + 1) 0 = (x :: xs).getD (8*(i+1) + 1) 0 := by
            rw [getD_drop]
            have e : 8 * (i+1) + 1 = (7 + (8*i + 1)) + 1 := by ring
            rw [e, List.getD_cons_succ]
          have e2 : (xs.drop 7).getD (8*i + 2) 0 = (x :: xs).getD (8*(i+1) + 2) 0 := by
            rw [getD_drop]
            have e : 8 * (i+1) + 2 = (7 + (8*i + 2)) + 1 := by ring
            rw [e, List.getD_cons_succ]
          refine ⟨?_, ?_, ?_⟩
          · rw [e0]; exact hi.1
          · rw [e1]; exact hi.2.1
          · rw [e2]; exact hi.2.2

theorem chunk8_dims (v : List ℚ) (h : flatDimsNonneg v) :
    dimsNonneg (chunk8 v) :=
  chunk8Go_dims v.length v (Nat.le_refl _) h

theorem dimsNonneg_nil : dimsNonneg [] := by
  intro r hr
  exact absurd hr (List.not_mem_nil r)

theorem parseArr_two (t : ℚ) (m : Mat2) :
    parseArr t (.two m) =
      if m.rows.length = 0 then emptyDetsAll
      else if m.rows.length = 1 ∧ m.cols % 8 = 0 then
        dispatchCols t ⟨8, chunk8 (m.rows.headD [])⟩
      else dispatchCols t m := rfl

theorem parseArr_one (t : ℚ) (v : List ℚ) :
    parseArr t (.one v) =
      if v.length = 0 then emptyDetsAll
      else if v.length % 8 = 0 then dispatchCols t ⟨8, chunk8 v⟩
      else dispatchCols t ⟨v.length, [v]⟩ := rfl

/-! ## Claim theorems -/

/-- C9: normalizing a payload that is already a canonical FramePayload
structure — a dictionary exposing `dets` and `info`, each already a 2-D
detection-per-row array — returns the same detections and info,
unchanged (including the column counts). -/
theorem claim_C9_normalize_idempotent (t : ℚ) (d i : Mat2) :
    parseDetectionInput t (.dict (.two d) (.two i)) =
      ⟨d.cols, d.rows, i.cols, i.rows⟩ := rfl

/-- C3 (amended): for every supported input shape — 2-D with 7, 8 or 15
columns, or 1-D of length a multiple of 8 — the normalizer produces a
detection count equal to the number of logical objects in the input
(rows for 2-D, length/8 for 1-D), unconditionally; and because the 3D
dimension fields are copied verbatim from their fixed input offsets
(columns 0-2, or 6-8 for the 15-column schema, or positions 8i..8i+2 of
a flattened buffer), the produced dimensions are non-negative whenever
just the input's dimension entries are non-negative — the unconditional
invariant fails, see the counterexample. -/
theorem claim_C3_normalizer_count_and_dims (t : ℚ) (m : Mat2) (v : List ℚ)
    (hwf : ∀ r ∈ m.rows, r.length = m.cols)
    (hc : m.cols = 7 ∨ m.cols = 8 ∨ m.cols = 15)
    (hv8 : v.length % 8 = 0) :
    ((parseDetectionInput t (.arr (.two m))).dets.length = m.rows.length
      ∧ (parseDetectionInput t (.arr (.one v))).dets.length = v.length / 8)
    ∧ (inputDimsNonneg m → dimsNonneg (parseDetectionInput t (.arr (.two m))).dets)
    ∧ (flatDimsNonneg v → dimsNonneg (parseDetectionInput t (.arr (.one v))).dets) := by
  have h2d : (parseArr t (.two m)).dets.length = m.rows.length
      ∧ (inputDimsNonneg m → dimsNonneg (parseArr t (.two m)).dets) := by
    rw [parseArr_two]
    by_cases h0 : m.rows.length = 0
    · rw [if_pos h0]
      exact ⟨h0.symm, fun _ => dimsNonneg_nil⟩
    · rw [if_neg h0]
      by_cases h1 : m.rows.length = 1 ∧ m.cols % 8 = 0
      · rw [if_pos h1]
        have hc8 : m.cols = 8 := by
          rcases hc with hc | hc | hc <;> omega
        obtain ⟨r0, hr0⟩ := List.length_eq_one.mp h1.1
        have hhead : m.rows.headD [] = r0 := by rw [hr0]; rfl
        have hr0len : r0.length = 8 := by
          rw [hwf r0 (by rw [hr0]; exact List.mem_singleton_self r0), hc8]
        rw [hhead, chunk8_of_length_eight r0 hr0len]
        constructor
        · rw [dispatchCols_length t _ (Or.inr (Or.inl rfl))]
          rw [h1.1]
          rfl
        · intro hdim
          refine dispatchCols_dims t ⟨8, [r0]⟩ ?_
          intro r hr
          rw [List.mem_singleton.mp hr]
          have hd := hdim r0 (by rw [hr0]; exact List.mem_singleton_self r0)
          rw [if_neg (by omega : ¬ m.cols = 15)] at hd
          rw [if_neg (by simp : ¬ ((⟨8, [r0]⟩ : Mat2).cols = 15))]
          exact hd
      · rw [if_neg h1]
        exact ⟨dispatchCols_length t m hc, fun hdim => dispatchCols_dims t m hdim⟩
  have h1d : (parseArr t (.one v)).dets.length = v.length / 8
      ∧ (flatDimsNonneg v → dimsNonneg (parseArr t (.one v)).dets) := by
    rw [parseArr_one]
    by_cases h0 : v.length = 0
    · rw [if_pos h0]
      exact ⟨by simp [emptyDetsAll, h0], fun _ => dimsNonneg_nil⟩
    · rw [if_neg h0, if_pos hv8]
      constructor
      · rw [dispatchCols_length t _ (Or.inr (Or.inl rfl))]
        exact chunk8_length v hv8
      · intro hdim
        refine dispatchCols_dims t ⟨8, chunk8 v⟩ ?_
        intro r hr
        rw [if_neg (by simp : ¬ ((⟨8, chunk8 v⟩ : Mat2).cols = 15))]
        exact chunk8_dims v hdim r hr
  exact ⟨⟨h2d.1, h1d.1⟩, h2d.2, h1d.2⟩

/-- C3 counterexample: the 2-D input `[[-1, 1, 1, 0, 0, 0, 0]]` has a
supported column count (7) and one logical object, yet the produced
detection's height field is -1: the claimed unconditional
non-negativity of the 3D dimension fields is false. -/
theorem claim_C3_counterexample :
    (parseDetectionInput 2 (.arr (.two ⟨7, [[-1,1,1,0,0,0,0]]⟩))).dets.length = 1
    ∧ ((parseDetectionInput 2 (.arr (.two ⟨7, [[-1,1,1,0,0,0,0]]⟩))).dets.getD 0 []).getD 0 0 = -1
    ∧ ¬ dimsNonneg (parseDetectionInput 2 (.arr (.two ⟨7, [[-1,1,1,0,0,0,0]]⟩))).dets := by
  decide

/-- Witness for C3 (amended) at concrete inputs: a `(2, 8)` array and a
16-element flattened buffer — both with negative position coordinates
but non-negative dimension slots — each normalize to 2 detections with
non-negative dimensions. -/
theorem claim_C3_witness :
    ((parseDetectionInput 2 (.arr (.two c3DemoMat))).dets.length = 2
      ∧ (parseDetectionInput 2 (.arr (.one c3DemoVec))).dets.length = 2)
    ∧ dimsNonneg (parseDetectionInput 2 (.arr (.two c3DemoMat))).dets
    ∧ dimsNonneg (parseDetectionInput 2 (.arr (.one c3DemoVec))).dets := by
  have h := claim_C3_normalizer_count_and_dims 2 c3DemoMat c3DemoVec
    (by decide) (by decide) (by decide)
  have hflat : flatDimsNonneg c3DemoVec := by
    intro i
    match i with
    | 0 => exact ⟨by decide, by decide, by decide⟩
    | 1 => exact ⟨by decide, by decide, by decide⟩
    | n + 2 =>
      have hlen : c3DemoVec.length = 16 := rfl
      refine ⟨?_, ?_, ?_⟩ <;>
        · rw [List.getD_eq_default _ _ (by omega)]
  exact ⟨⟨h.1.1.trans (by decide), h.1.2.trans (by decide)⟩,
    h.2.1 (by decide), h.2.2 hflat⟩

theorem stepFrame_ok (s : RTTracker) (c : FrameCall) (h : callOk c) :
    (stepFrame s c).frameCount = s.frameCount + 1 := by
  obtain ⟨hs, hk⟩ := h
  rcases hcore : c.core with e | results
  · rw [hcore] at hk
    simp [coreOk] at hk
  · unfold stepFrame trackFrame
    rw [hcore]
    by_cases h0 : c.dets.rows.length = 0
    · rw [if_pos h0]
    · rw [if_neg h0]
      have h87 : c.dets.cols = 8 ∨ c.dets.cols = 7 := by
        rcases hs with hs | hs | hs
        · exact absurd hs h0
        · exact Or.inl hs
        · exact Or.inr hs
      rw [if_pos h87]

theorem runFrames_count (calls : List FrameCall) :
    ∀ s : RTTracker, (∀ c ∈ calls, callOk c) →
      (runFrames s calls).frameCount = s.frameCount + calls.length := by
  induction calls with
  | nil => intro s _; simp [runFrames]
  | cons c cs ih =>
    intro s h
    rw [runFrames, ih _ (fun x hx => h x (List.mem_cons_of_mem c hx)),
        stepFrame_ok s c (h c (List.mem_cons_self c cs)), List.length_cons]
    omega

/-- C8: from a fresh session, N fault-free `track_frame` calls advance
the internal frame counter to exactly N; one fault-free call advances it
by exactly 1 regardless of any explicit frame-index override carried by
the call; and `reset()` zeroes it. -/
theorem claim_C8_session_frame_counter (calls : List FrameCall)
    (s : RTTracker) (c : FrameCall)
    (hall : ∀ x ∈ calls, callOk x) (hc : callOk c) :
    (runFrames rtInit calls).frameCount = calls.length
    ∧ (stepFrame s c).frameCount = s.frameCount + 1
    ∧ (rtReset s).frameCount = 0 := by
  refine ⟨?_, stepFrame_ok s c hc, rfl⟩
  rw [runFrames_count calls rtInit hall]
  simp [rtInit]

/-- Witness for C8: two fault-free calls (the second with an explicit
frame-index override) advance the fresh counter to 2; one call from
counter 5 gives 6; reset gives 0. -/
theorem claim_C8_witness :
    (runFrames rtInit [c8DemoCall1, c8DemoCall2]).frameCount = 2
    ∧ (stepFrame ⟨5⟩ c8DemoCall2).frameCount = 5 + 1
    ∧ (rtReset ⟨5⟩).frameCount = 0 :=
  claim_C8_session_frame_counter [c8DemoCall1, c8DemoCall2] ⟨5⟩ c8DemoCall2
    (by decide) (by decide)

theorem coreProcess_eq (s : CoreState) (inp : FrameInput) :
    coreProcess s inp =
      ⟨if (s.frameCount + 1) % 100 = 0 then
          { s with lastProcessTime := inp.time, frameCount := s.frameCount + 1,
                   tracker := rtInit, trackerGen := s.trackerGen + 1 }
        else
          { s with lastProcessTime := inp.time, frameCount := s.frameCount + 1 },
        some (outputGuard (coreTrackingResults s inp (inp.frameIdx.getD (s.frameCount : ℤ)))),
        some (inp.frameIdx.getD (s.frameCount : ℤ)),
        .processed⟩ := rfl

theorem coreProcess_state_fields (s : CoreState) (inp : FrameInput) :
    (coreProcess s inp).kind = .processed
    ∧ (coreProcess s inp).state.frameCount = s.frameCount + 1
    ∧ (coreProcess s inp).state.lastProcessTime = inp.time
    ∧ (coreProcess s inp).state.minProcessInterval = s.minProcessInterval
    ∧ (coreProcess s inp).state.maxErrors = s.maxErrors
    ∧ (coreProcess s inp).state.errorCount = s.errorCount := by
  rw [coreProcess_eq]
  by_cases h : (s.frameCount + 1) % 100 = 0 <;> simp [h]

theorem coreStep_maxErrors (s : CoreState) (inp : FrameInput) :
    (coreStep s inp).state.maxErrors = s.maxErrors := by
  unfold coreStep
  split_ifs
  · rfl
  · rfl
  · rfl
  · rfl
  · exact (coreProcess_state_fields _ inp).2.2.2.2.1

theorem coreStep_errorCount (s : CoreState) (inp : FrameInput) :
    (coreStep s inp).state.errorCount ≤ max s.errorCount 1 := by
  unfold coreStep
  split_ifs
  · exact le_max_left _ _
  · exact le_max_left _ _
  · exact le_trans (Nat.zero_le _) (le_max_right _ _)
  · exact le_max_right _ _
  · rw [(coreProcess_state_fields _ inp).2.2.2.2.2]
    exact le_trans (Nat.zero_le _) (le_max_right _ _)

theorem coreStep_breaker (s : CoreState) (inp : FrameInput)
    (h : (coreStep s inp).kind = .breakerSkipped) :
    s.maxErrors ≤ s.errorCount := by
  by_cases hr : inp.time - s.lastProcessTime < s.minProcessInterval
  · exfalso
    unfold coreStep at h
    rw [if_pos hr] at h
    exact StepKind.noConfusion h
  · by_cases hb : s.maxErrors ≤ s.errorCount
    · exact hb
    · exfalso
      unfold coreStep at h
      rw [if_neg hr, if_neg hb] at h
      by_cases hd : inp.hasData = false
      · rw [if_pos hd] at h
        exact StepKind.noConfusion h
      · rw [if_neg hd] at h
        by_cases ho : inp.outerFault
        · rw [if_pos ho] at h
          exact StepKind.noConfusion h
        · rw [if_neg ho] at h
          rw [(coreProcess_state_fields _ inp).1] at h
          exact StepKind.noConfusion h

theorem coreStep_processed_eq (s : CoreState) (inp : FrameInput)
    (h : (coreStep s inp).kind = .processed) :
    coreStep s inp = coreProcess { s with errorCount := 0 } inp := by
  by_cases hr : inp.time - s.lastProcessTime < s.minProcessInterval
  · exfalso
    unfold coreStep at h
    rw [if_pos hr] at h
    exact StepKind.noConfusion h
  · by_cases hb : s.maxErrors ≤ s.errorCount
    · exfalso
      unfold coreStep at h
      rw [if_neg hr, if_pos hb] at h
      exact StepKind.noConfusion h
    · by_cases hd : inp.hasData = false
      · exfalso
        unfold coreStep at h
        rw [if_neg hr, if_neg hb, if_pos hd] at h
        exact StepKind.noConfusion h
      · by_cases ho : inp.outerFault
        · exfalso
          unfold coreStep at h
          rw [if_neg hr, if_neg hb, if_neg hd, if_pos ho] at h
          exact StepKind.noConfusion h
        · unfold coreStep
          rw [if_neg hr, if_neg hb, if_neg hd, if_neg ho]

theorem coreStep_rate_drop (s : CoreState) (inp : FrameInput)
    (h : inp.time - s.lastProcessTime < s.minProcessInterval) :
    coreStep s inp = ⟨s, none, none, .rateDropped⟩ := by
  unfold coreStep
  rw [if_pos h]

theorem coreStep_run_eq (s : CoreState) (inp : FrameInput)
    (hrate : ¬ inp.time - s.lastProcessTime < s.minProcessInterval)
    (hbrk : s.errorCount < s.maxErrors)
    (hdata : inp.hasData = true)
    (houter : inp.outerFault = false) :
    coreStep s inp = coreProcess { s with errorCount := 0 } inp := by
  unfold coreStep
  rw [if_neg hrate, if_neg (not_le.mpr hbrk), if_neg (by simp [hdata]),
      if_neg (by simp [houter])]

theorem runCore_cons (s : CoreState) (inp : FrameInput) (rest : List FrameInput) :
    runCore s (inp :: rest) =
      ((runCore (coreStep s inp).state rest).1,
        (coreStep s inp).kind :: (runCore (coreStep s inp).state rest).2) := rfl

theorem coreTrackingResults_fault (s : CoreState) (inp : FrameInput) (fi : ℤ)
    (h : inp.trackingFault = true) : coreTrackingResults s inp fi = [] := by
  simp only [coreTrackingResults]
  split_ifs <;> rfl

theorem outputGuard_take (rs : Mat) : outputGuard rs = rs.take 1 := by
  match rs with
  | [] => rfl
  | [a] => rfl
  | a :: b :: t =>
    show outputGuard (a :: b :: t) = [a]
    simp only [outputGuard]
    have h1 : 1 < (a :: b :: t).length := by
      simp only [List.length_cons]
      omega
    rw [if_pos h1]
    simp

/-- C1 (code evaluation): the circuit breaker can never trip. Whenever
`max_errors` is at least 2 — the shipped default is 10 — no run of the
live component ever takes the breaker-skip branch, because `Core()`
resets the consecutive-error counter to 0 at the top of every pass
(before, not after, successful processing) and the inner handler
swallows tracking-core faults without incrementing it, so the counter
never exceeds 1. -/
theorem claim_C1_breaker_never_trips (s : CoreState) (inps : List FrameInput)
    (hmax : 2 ≤ s.maxErrors) (herr : s.errorCount ≤ 1) :
    StepKind.breakerSkipped ∉ (runCore s inps).2 := by
  induction inps generalizing s with
  | nil => simp [runCore]
  | cons inp rest ih =>
    rw [runCore_cons]
    intro hmem
    rcases List.mem_cons.mp hmem with hk | hk
    · have hb := coreStep_breaker s inp hk.symm
      omega
    · refine ih (coreStep s inp).state ?_ ?_ hk
      · rw [coreStep_maxErrors]; exact hmax
      · exact le_trans (coreStep_errorCount s inp) (Nat.max_le.mpr ⟨herr, le_rfl⟩)

/-- Witness for C1 with `max_errors = 2`: even after three consecutive
tracking-core faults, no frame is ever breaker-skipped. -/
theorem claim_C1_witness :
    StepKind.breakerSkipped ∉ (runCore c1DemoState c1DemoInputs).2 :=
  claim_C1_breaker_never_trips c1DemoState c1DemoInputs (by decide) (by decide)

/-- C2 (amended): a processed frame advances the component frame counter
by exactly 1; when that makes it a multiple of 100 the tracker is
replaced wholesale by a freshly constructed instance (whose internal
frame counter is 0) rather than reset in place, and otherwise the
instance is untouched. The component-level frame counter that supplies
record frame indices is never reset by this, so record frame indices
keep increasing across periodic resets (see the counterexample). -/
theorem claim_C2_periodic_reset (s : CoreState) (inp : FrameInput)
    (h : (coreStep s inp).kind = .processed) :
    (coreStep s inp).state.frameCount = s.frameCount + 1
    ∧ ((s.frameCount + 1) % 100 = 0 →
        (coreStep s inp).state.tracker = rtInit
        ∧ (coreStep s inp).state.tracker.frameCount = 0
        ∧ (coreStep s inp).state.trackerGen = s.trackerGen + 1)
    ∧ ((s.frameCount + 1) % 100 ≠ 0 →
        (coreStep s inp).state.tracker = s.tracker
        ∧ (coreStep s inp).state.trackerGen = s.trackerGen) := by
  rw [coreStep_processed_eq s inp h, coreProcess_eq]
  by_cases hm : (s.frameCount + 1) % 100 = 0 <;> simp [hm, rtInit]

theorem c2DemoStep_processed : (coreStep c2DemoState c2DemoInput).kind = .processed := by
  rw [coreStep_run_eq c2DemoState c2DemoInput
    (by norm_num [c2DemoState, c2DemoInput]) (by decide) rfl rfl]
  rw [coreProcess_eq]

/-- Witness for C2 (amended): processing the 100th frame bumps the
component counter to 100 and replaces the tracker with a fresh instance
(generation 2, internal counter 0). -/
theorem claim_C2_witness :
    (coreStep c2DemoState c2DemoInput).state.frameCount = 100
    ∧ (coreStep c2DemoState c2DemoInput).state.tracker = rtInit
    ∧ (coreStep c2DemoState c2DemoInput).state.tracker.frameCount = 0
    ∧ (coreStep c2DemoState c2DemoInput).state.trackerGen = 2 := by
  have h := claim_C2_periodic_reset c2DemoState c2DemoInput c2DemoStep_processed
  have h100 := h.2.1 (by decide)
  exact ⟨h.1.trans (by decide), h100.1, h100.2.1, h100.2.2.trans (by decide)⟩

/-- C2 counterexample: at the component state reached after 99 processed
frames, processing the next frame performs the periodic reset (the
tracker is replaced by a fresh instance, generation 2), yet the frame
index used for the following frame's records is 100, not 0 — the
component-level frame counter is not restarted, so the part of the claim
saying the reset "restarts the frame counter used for subsequent frame
records from zero" is false. -/
theorem claim_C2_counterexample :
    (coreStep c2DemoState c2DemoInput).state.tracker = rtInit
    ∧ (coreStep c2DemoState c2DemoInput).state.trackerGen = 2
    ∧ (coreStep (coreStep c2DemoState c2DemoInput).state c2DemoInput2).usedFrameIdx
        = some 100
    ∧ (100 : ℤ) ≠ 0 := by
  have h1e : coreStep c2DemoState c2DemoInput =
      ⟨⟨0, 10, 1, 1, 100, 2, rtInit, 2⟩, some [], some 99, .processed⟩ := by
    rw [coreStep_run_eq _ _ (by norm_num [c2DemoState, c2DemoInput]) (by decide) rfl rfl,
        coreProcess_eq]
    rfl
  have h2e : coreStep (⟨0, 10, 1, 1, 100, 2, rtInit, 2⟩ : CoreState) c2DemoInput2 =
      coreProcess { (⟨0, 10, 1, 1, 100, 2, rtInit, 2⟩ : CoreState) with errorCount := 0 }
        c2DemoInput2 :=
    coreStep_run_eq _ _ (by norm_num [c2DemoInput2]) (by decide) rfl rfl
  refine ⟨?_, ?_, ?_, by decide⟩
  · rw [h1e]
  · rw [h1e]
  · rw [h1e]
    show (coreStep (⟨0, 10, 1, 1, 100, 2, rtInit, 2⟩ : CoreState) c2DemoInput2).usedFrameIdx
      = some 100
    rw [h2e, coreProcess_eq]
    rfl

/-- C4 (amended): in the live-streaming component, a fault raised during
the tracking invocation is recovered locally as an empty 0×15 tracks
output while the frame still completes (the frame counter advances), and
no exception escapes; the batch-level `RealtimeTracker.track_frame`,
however, does NOT follow the empty-result convention: it raises
`ValueError` on an unsupported detection shape and propagates
tracking-core faults to its caller. -/
theorem claim_C4_fault_recovery (s : CoreState) (inp : FrameInput)
    (t : RTTracker) (m m2 : Mat2) (fi fi2 : Option ℤ) (co : Except Unit (List Mat))
    (hrate : ¬ inp.time - s.lastProcessTime < s.minProcessInterval)
    (hbrk : s.errorCount < s.maxErrors)
    (hdata : inp.hasData = true)
    (houter : inp.outerFault = false)
    (hfault : inp.trackingFault = true)
    (hbad : m.rows.length ≠ 0 ∧ m.cols ≠ 8 ∧ m.cols ≠ 7)
    (hgood : m2.rows.length = 0 ∨ m2.cols = 8 ∨ m2.cols = 7) :
    ((coreStep s inp).tracksOut = some []
      ∧ (coreStep s inp).kind = .processed
      ∧ (coreStep s inp).state.frameCount = s.frameCount + 1)
    ∧ trackFrame t m fi co = .error .invalidShape
    ∧ trackFrame t m2 fi2 (.error ()) = .error .coreFault := by
  have he := coreStep_run_eq s inp hrate hbrk hdata houter
  refine ⟨⟨?_, ?_, ?_⟩, ?_, ?_⟩
  · rw [he, coreProcess_eq, coreTrackingResults_fault _ _ _ hfault]
    rfl
  · rw [he, (coreProcess_state_fields _ inp).1]
  · rw [he, (coreProcess_state_fields _ inp).2.1]
  · have hcols : ¬ (m.cols = 8 ∨ m.cols = 7) := by
      rintro (h8 | h7)
      · exact hbad.2.1 h8
      · exact hbad.2.2 h7
    unfold trackFrame
    rw [if_neg hbad.1, if_neg hcols]
  · unfold trackFrame
    by_cases h0 : m2.rows.length = 0
    · rw [if_pos h0]
    · have hg : m2.cols = 8 ∨ m2.cols = 7 := by
        rcases hgood with h | h | h
        · exact absurd h h0
        · exact Or.inl h
        · exact Or.inr h
      rw [if_neg h0, if_pos hg]

/-- C4 counterexample: a batch caller does NOT receive the empty-result
convention for every input — `RealtimeTracker.track_frame` on a `(1, 9)`
detection array raises `ValueError` (its shape validation is an explicit
`raise`, with no handler in the function), refuting the claim's second
half. -/
theorem claim_C4_counterexample :
    trackFrame rtInit ⟨9, [[0,0,0,0,0,0,0,0,0]]⟩ none (.ok []) = .error .invalidShape := rfl

/-- Witness for C4 (amended): the live component converts a tracking
fault into an empty output and continues, while `track_frame` raises on
a `(1, 9)` detection array and propagates a core fault on a `(1, 7)`
one. -/
theorem claim_C4_witness :
    ((coreStep c4DemoState c4DemoInput).tracksOut = some []
      ∧ (coreStep c4DemoState c4DemoInput).kind = .processed
      ∧ (coreStep c4DemoState c4DemoInput).state.frameCount = c4DemoState.frameCount + 1)
    ∧ trackFrame rtInit ⟨9, [[0,0,0,0,0,0,0,0,0]]⟩ none (.ok []) = .error .invalidShape
    ∧ trackFrame rtInit ⟨7, [[1,1,1,0,0,0,0]]⟩ none (.error ()) = .error .coreFault :=
  claim_C4_fault_recovery c4DemoState c4DemoInput rtInit
    ⟨9, [[0,0,0,0,0,0,0,0,0]]⟩ ⟨7, [[1,1,1,0,0,0,0]]⟩ none none (.ok [])
    (by norm_num [c4DemoState, c4DemoInput]) (by decide) rfl rfl rfl
    (by decide) (by decide)

/-- C5 (amended): the rate limiter guarantees at most one of two frames
closer together than the minimum interval is processed: if a frame is
processed, a second frame arriving less than the minimum interval after
it is silently dropped — state unchanged, nothing written, no tracking
invocation ("exactly one" fails: both frames may be dropped, see the
counterexample). -/
theorem claim_C5_rate_limiter (s : CoreState) (f1 f2 : FrameInput)
    (h1 : (coreStep s f1).kind = .processed)
    (hsep : f2.time - f1.time < s.minProcessInterval) :
    coreStep (coreStep s f1).state f2 =
      ⟨(coreStep s f1).state, none, none, .rateDropped⟩ := by
  have he := coreStep_processed_eq s f1 h1
  have hfields := coreProcess_state_fields { s with errorCount := 0 } f1
  have hlt : f2.time - (coreStep s f1).state.lastProcessTime <
      (coreStep s f1).state.minProcessInterval := by
    rw [he, hfields.2.2.1, hfields.2.2.2.1]
    exact hsep
  exact coreStep_rate_drop _ _ hlt

theorem c5DemoStep_processed : (coreStep c5DemoState (c5Frame 10)).kind = .processed := by
  rw [coreStep_run_eq _ _ (by norm_num [c5DemoState, c5Frame]) (by decide) rfl rfl,
      coreProcess_eq]

/-- Witness for C5 (amended): after the processed frame at time 10, the
frame at time 11 (separation 1 < 3) is silently rate-dropped with the
state unchanged. -/
theorem claim_C5_witness :
    coreStep (coreStep c5DemoState (c5Frame 10)).state (c5Frame 11) =
      ⟨(coreStep c5DemoState (c5Frame 10)).state, none, none, .rateDropped⟩ :=
  claim_C5_rate_limiter c5DemoState (c5Frame 10) (c5Frame 11)
    c5DemoStep_processed (by norm_num [c5DemoState, c5Frame])

/-- C5 counterexample: with minimum interval 3 and a frame accepted at
time 10, the frames at times 11 and 12 are only 1 apart — less than the
minimum interval — yet NEITHER of them is processed (both are silently
rate-dropped), refuting "exactly one of the two frames is processed". -/
theorem claim_C5_counterexample :
    (runCore c5DemoState [c5Frame 10, c5Frame 11, c5Frame 12]).2
      = [.processed, .rateDropped, .rateDropped]
    ∧ (c5Frame 12).time - (c5Frame 11).time < c5DemoState.minProcessInterval := by
  constructor
  · have h1e : coreStep c5DemoState (c5Frame 10) =
        ⟨⟨0, 10, 10, 3, 1, 2, rtInit, 1⟩, some [], some 0, .processed⟩ := by
      rw [coreStep_run_eq _ _ (by norm_num [c5DemoState, c5Frame]) (by decide) rfl rfl,
          coreProcess_eq]
      rfl
    have h2e : coreStep (⟨0, 10, 10, 3, 1, 2, rtInit, 1⟩ : CoreState) (c5Frame 11) =
        ⟨⟨0, 10, 10, 3, 1, 2, rtInit, 1⟩, none, none, .rateDropped⟩ :=
      coreStep_rate_drop _ _ (by norm_num [c5Frame])
    have h3e : coreStep (⟨0, 10, 10, 3, 1, 2, rtInit, 1⟩ : CoreState) (c5Frame 12) =
        ⟨⟨0, 10, 10, 3, 1, 2, rtInit, 1⟩, none, none, .rateDropped⟩ :=
      coreStep_rate_drop _ _ (by norm_num [c5Frame])
    rw [runCore_cons, h1e]
    show (_, StepKind.processed :: (runCore (⟨0, 10, 10, 3, 1, 2, rtInit, 1⟩ : CoreState)
      [c5Frame 11, c5Frame 12]).2).2 = _
    rw [runCore_cons, h2e]
    show (_, StepKind.processed :: StepKind.rateDropped ::
      (runCore (⟨0, 10, 10, 3, 1, 2, rtInit, 1⟩ : CoreState) [c5Frame 12]).2).2 = _
    rw [runCore_cons, h3e]
    rfl
  · norm_num [c5DemoState, c5Frame]

/-- C10: whatever the live component writes to the tracks output is
never more than one row — the three layered output guards compose to
truncation to the first tracking result (`take 1`), regardless of how
many detections were input or how many results tracking produced. -/
theorem claim_C10_output_truncation (s : CoreState) (inp : FrameInput) (rows : Mat)
    (h : (coreStep s inp).tracksOut = some rows) :
    rows.length ≤ 1 ∧ ∀ rs : Mat, outputGuard rs = rs.take 1 := by
  refine ⟨?_, outputGuard_take⟩
  by_cases hr : inp.time - s.lastProcessTime < s.minProcessInterval
  · unfold coreStep at h
    rw [if_pos hr] at h
    exact Option.noConfusion h
  · by_cases hb : s.maxErrors ≤ s.errorCount
    · unfold coreStep at h
      rw [if_neg hr, if_pos hb] at h
      exact Option.noConfusion h
    · by_cases hd : inp.hasData = false
      · unfold coreStep at h
        rw [if_neg hr, if_neg hb, if_pos hd] at h
        exact Option.noConfusion h
      · by_cases ho : inp.outerFault
        · unfold coreStep at h
          rw [if_neg hr, if_neg hb, if_neg hd, if_pos ho] at h
          have he : ([] : Mat) = rows := Option.some.inj h
          rw [← he]
          decide
        · unfold coreStep at h
          rw [if_neg hr, if_neg hb, if_neg hd, if_neg ho, coreProcess_eq] at h
          have he := Option.some.inj h
          rw [← he, outputGuard_take]
          have hl := List.length_take 1
            (coreTrackingResults { s with errorCount := 0 } inp
              (inp.frameIdx.getD (({ s with errorCount := 0 } : CoreState).frameCount : ℤ)))
          omega

/-- Witness for C10: the frame with two detections produces a tracks
output of at most one row. -/
theorem claim_C10_witness :
    ∃ rows, (coreStep c10DemoState c10DemoInput).tracksOut = some rows
      ∧ rows.length ≤ 1
      ∧ ∀ rs : Mat, outputGuard rs = rs.take 1 := by
  have hs : (coreStep c10DemoState c10DemoInput).tracksOut =
      some (outputGuard (coreTrackingResults { c10DemoState with errorCount := 0 }
        c10DemoInput
        (c10DemoInput.frameIdx.getD
          (({ c10DemoState with errorCount := 0 } : CoreState).frameCount : ℤ)))) := by
    rw [coreStep_run_eq _ _ (by norm_num [c10DemoState, c10DemoInput]) (by decide) rfl rfl,
        coreProcess_eq]
  have hc := claim_C10_output_truncation c10DemoState c10DemoInput _ hs
  exact ⟨_, hs, hc.1, hc.2⟩

theorem findFile_update_self (l : List (ℕ × CSVFile)) (hypo : ℕ) (f f0 : CSVFile)
    (h : findFile l hypo = some f0) :
    findFile (l.map (fun p => if p.1 = hypo then (p.1, f) else p)) hypo = some f := by
  induction l with
  | nil => simp [findFile] at h
  | cons p t ih =>
    by_cases hp : p.1 = hypo
    · rw [List.map_cons, if_pos hp]
      simp [findFile, hp]
    · rw [List.map_cons, if_neg hp]
      simp only [findFile, if_neg hp] at h ⊢
      exact ih h

theorem findFile_update_other (l : List (ℕ × CSVFile)) (hypo h2 : ℕ) (f : CSVFile)
    (hne : h2 ≠ hypo) :
    findFile (l.map (fun p => if p.1 = hypo then (p.1, f) else p)) h2 = findFile l h2 := by
  induction l with
  | nil => rfl
  | cons p t ih =>
    by_cases hp : p.1 = hypo
    · rw [List.map_cons, if_pos hp]
      have hph : ¬ p.1 = h2 := by rw [hp]; exact fun hh => hne hh.symm
      simp only [findFile, if_neg hph]
      exact ih
    · rw [List.map_cons, if_neg hp]
      by_cases ph2 : p.1 = h2
      · simp only [findFile, if_pos ph2]
      · simp only [findFile, if_neg ph2]
        exact ih

theorem findFile_append (l1 l2 : List (ℕ × CSVFile)) (k : ℕ) :
    findFile (l1 ++ l2) k =
      match findFile l1 k with
      | some f => some f
      | none => findFile l2 k := by
  induction l1 with
  | nil => rfl
  | cons p t ih =>
    by_cases hp : p.1 = k <;> simp [findFile, hp, ih]

theorem findFile_map_none (l : List ℕ) (g : ℕ → CSVFile) (k : ℕ) (h : k ∉ l) :
    findFile (l.map (fun h2 => (h2, g h2))) k = none := by
  induction l with
  | nil => rfl
  | cons a t ih =>
    simp only [List.map_cons, findFile]
    rw [if_neg (fun he => (List.ne_of_not_mem_cons h) he.symm)]
    exact ih (List.not_mem_of_not_mem_cons h)

theorem findFile_range (n : ℕ) (g : ℕ → CSVFile) (k : ℕ) (h : k < n) :
    findFile ((List.range n).map (fun h2 => (h2, g h2))) k = some (g k) := by
  induction n with
  | zero => omega
  | succ n ih =>
    rw [List.range_succ, List.map_append, findFile_append]
    rcases Nat.lt_or_ge k n with hk | hk
    · rw [ih hk]
    · have hkn : k = n := by omega
      subst hkn
      rw [findFile_map_none (List.range k) g k (by simp)]
      simp [findFile]

theorem headD_append_left {α : Type} (l l2 : List α) (d : α) (h : l ≠ []) :
    (l ++ l2).headD d = l.headD d := by
  cases l with
  | nil => exact absurd rfl h
  | cons a t => rfl

theorem tail_append_left {α : Type} (l l2 : List α) (h : l ≠ []) :
    (l ++ l2).tail = l.tail ++ l2 := by
  cases l with
  | nil => exact absurd rfl h
  | cons a t => rfl

theorem updateFile_files (st : CSVExporterState) (hypo : ℕ) (f : CSVFile) :
    (updateFile st hypo f).files =
      st.files.map (fun p => if p.1 = hypo then (p.1, f) else p) := rfl

theorem mkCsvRow_placeholders (result : List ℚ) (typeStr : String) (frame : ℤ) :
    (mkCsvRow result typeStr frame).getD 3 (.q 0) = Cell.i 0
    ∧ (mkCsvRow result typeStr frame).getD 4 (.q 0) = Cell.i 0 := ⟨rfl, rfl⟩

theorem exportResult_sinkInv (seqName : String) (hypo : ℕ)
    (st st2 : CSVExporterState) (c : ExportCall)
    (h : exportResult st c.result c.hypo c.detId2Str c.frame c.threshold = some st2)
    (hinv : sinkInv seqName hypo st) : sinkInv seqName hypo st2 := by
  obtain ⟨file, hf, hname, hne, hhead, hrows⟩ := hinv
  unfold exportResult at h
  rcases hl : findFile st.files c.hypo with _ | file0 <;> rw [hl] at h
  · rw [← Option.some.inj h]
    exact ⟨file, hf, hname, hne, hhead, hrows⟩
  · rcases hd : c.detId2Str (c.result.getD 9 0) with _ | ty <;> rw [hd] at h <;>
      dsimp only at h
    · cases h
    · by_cases ht : c.threshold ≤ c.result.getD 14 0
      · rw [if_pos ht] at h
        rw [← Option.some.inj h]
        by_cases hh : c.hypo = hypo
        · subst hh
          have hfe : file0 = file := Option.some.inj (hl.symm.trans hf)
          subst hfe
          refine ⟨⟨file0.name, file0.rows ++ [mkCsvRow c.result ty c.frame]⟩, ?_, hname, ?_, ?_, ?_⟩
          · rw [updateFile_files]
            exact findFile_update_self st.files c.hypo _ file0 hf
          · simp
          · rw [headD_append_left _ _ _ hne]
            exact hhead
          · intro row hrow
            rw [tail_append_left _ _ hne] at hrow
            rcases List.mem_append.mp hrow with hr | hr
            · exact hrows row hr
            · rw [List.mem_singleton.mp hr]
              exact mkCsvRow_placeholders c.result ty c.frame
        · refine ⟨file, ?_, hname, hne, hhead, hrows⟩
          rw [updateFile_files]
          rw [findFile_update_other st.files c.hypo hypo _ (fun he => hh he.symm)]
          exact hf
      · rw [if_neg ht] at h
        rw [← Option.some.inj h]
        exact ⟨file, hf, hname, hne, hhead, hrows⟩

theorem exportResult_length (st st2 : CSVExporterState) (c : ExportCall)
    (h : exportResult st c.result c.hypo c.detId2Str c.frame c.threshold = some st2) :
    st2.files.length = st.files.length := by
  unfold exportResult at h
  rcases hl : findFile st.files c.hypo with _ | file0 <;> rw [hl] at h
  · rw [← Option.some.inj h]
  · rcases hd : c.detId2Str (c.result.getD 9 0) with _ | ty <;> rw [hd] at h <;>
      dsimp only at h
    · cases h
    · by_cases ht : c.threshold ≤ c.result.getD 14 0
      · rw [if_pos ht] at h
        rw [← Option.some.inj h, updateFile_files, List.length_map]
      · rw [if_neg ht] at h
        rw [← Option.some.inj h]

theorem runExports_sinkInv (seqName : String) (hypo : ℕ) (calls : List ExportCall) :
    ∀ st st2 : CSVExporterState,
      runExports st calls = some st2 →
      sinkInv seqName hypo st → sinkInv seqName hypo st2 ∧ st2.files.length = st.files.length := by
  induction calls with
  | nil =>
    intro st st2 h hinv
    rw [← Option.some.inj h]
    exact ⟨hinv, rfl⟩
  | cons c cs ih =>
    intro st st2 h hinv
    rw [runExports] at h
    rcases he : exportResult st c.result c.hypo c.detId2Str c.frame c.threshold
        with _ | stm <;> rw [he] at h
    · cases h
    · have h1 := exportResult_sinkInv seqName hypo st stm c he hinv
      have h2 := exportResult_length st stm c he
      have h3 := ih stm st2 h h1
      exact ⟨h3.1, h3.2.trans h2⟩

theorem initSequenceFiles_sinkInv (st : CSVExporterState) (seqName : String)
    (hypo : ℕ) (hh : hypo < st.numHypo) :
    sinkInv seqName hypo (initSequenceFiles st seqName)
    ∧ (initSequenceFiles st seqName).files.length = st.numHypo := by
  constructor
  · refine ⟨⟨csvFilename hypo seqName, [headerCells]⟩, ?_, rfl, by simp, rfl, by simp⟩
    show findFile ((List.range st.numHypo).map
      (fun h => (h, ⟨csvFilename h seqName, [headerCells]⟩))) hypo = _
    exact findFile_range st.numHypo _ hypo hh
  · show ((List.range st.numHypo).map _).length = st.numHypo
    simp

/-- C6: the exporter's write contract. With the sink for the hypothesis
open and the category resolvable, `export_result` appends exactly one
row iff the result's confidence (field 14) is ≥ the threshold — the
boundary confidence = threshold is included — and the confidence cell of
the appended row (column 17) is the input score copied verbatim; a
result below threshold leaves the sink untouched. -/
theorem claim_C6_export_contract (st : CSVExporterState) (result : List ℚ)
    (hypo : ℕ) (d : ℚ → Option String) (frame : ℤ) (T : ℚ)
    (file : CSVFile) (typeStr : String)
    (hfile : findFile st.files hypo = some file)
    (hty : d (result.getD 9 0) = some typeStr) :
    (T ≤ result.getD 14 0 →
      ∃ st2, exportResult st result hypo d frame T = some st2
        ∧ findFile st2.files hypo =
            some ⟨file.name, file.rows ++ [mkCsvRow result typeStr frame]⟩
        ∧ (mkCsvRow result typeStr frame).getD 17 (.i 0) = .q (result.getD 14 0))
    ∧ (result.getD 14 0 < T →
      exportResult st result hypo d frame T = some st) := by
  constructor
  · intro hT
    refine ⟨updateFile st hypo ⟨file.name, file.rows ++ [mkCsvRow result typeStr frame]⟩,
      ?_, ?_, rfl⟩
    · unfold exportResult
      rw [hfile, hty]
      dsimp only
      rw [if_pos hT]
    · rw [updateFile_files]
      exact findFile_update_self st.files hypo _ file hfile
  · intro hT
    unfold exportResult
    rw [hfile, hty]
    dsimp only
    rw [if_neg (not_le.mpr hT)]

/-- Witness for C6 at the inclusive boundary: with threshold equal to
the confidence 9/10, exactly one row is appended and its confidence cell
is the verbatim input score; additionally the whole-number threshold 1
(strictly above 9/10) appends nothing. -/
theorem claim_C6_witness :
    (∃ st2, exportResult c6DemoState c6DemoResult 0 kittiId2Str 0 (mkRat 9 10) = some st2
      ∧ findFile st2.files 0 =
          some ⟨csvFilename 0 "0001", [headerCells,
            mkCsvRow c6DemoResult "Car" 0]⟩
      ∧ (mkCsvRow c6DemoResult "Car" 0).getD 17 (.i 0) = .q (c6DemoResult.getD 14 0))
    ∧ exportResult c6DemoState c6DemoResult 0 kittiId2Str 0 1 = some c6DemoState := by
  have h1 := claim_C6_export_contract c6DemoState c6DemoResult 0 kittiId2Str 0 (mkRat 9 10)
    ⟨csvFilename 0 "0001", [headerCells]⟩ "Car" (by decide) (by decide)
  have h2 := claim_C6_export_contract c6DemoState c6DemoResult 0 kittiId2Str 0 1
    ⟨csvFilename 0 "0001", [headerCells]⟩ "Car" (by decide) (by decide)
  exact ⟨h1.1 (by decide), h2.2 (by decide)⟩

/-- C7: the CSV export format. After opening a sequence and any run of
successful export calls: there is one sink per hypothesis index; the
sink of each hypothesis is named
`tracking_results_H{hypo}_{seq_name}.csv`; its first row is the fixed
18-column header whose comma-separated form is exactly the specified
string; the sinks are opened with UTF-8 encoding; and every data row
carries the `truncated` and `occluded` columns as 0. -/
theorem claim_C7_csv_format (st : CSVExporterState) (seqName : String)
    (calls : List ExportCall) (hypo : ℕ) (st2 : CSVExporterState)
    (hh : hypo < st.numHypo)
    (hrun : runExports (initSequenceFiles st seqName) calls = some st2) :
    st2.files.length = st.numHypo
    ∧ csvHeader.length = 18
    ∧ String.intercalate "," csvHeader =
        "frame,track_id,object_type,truncated,occluded,alpha,bbox_left,bbox_top,bbox_right,bbox_bottom,height_3d,width_3d,length_3d,x_3d,y_3d,z_3d,rotation_y,confidence_score"
    ∧ csvEncoding = "utf-8"
    ∧ ∃ file, findFile st2.files hypo = some file
        ∧ file.name = "tracking_results_H" ++ toString hypo ++ "_" ++ seqName ++ ".csv"
        ∧ file.rows.headD [] = headerCells
        ∧ ∀ row ∈ file.rows.tail,
            row.getD 3 (.q 0) = Cell.i 0 ∧ row.getD 4 (.q 0) = Cell.i 0 := by
  have hinit := initSequenceFiles_sinkInv st seqName hypo hh
  have hrun2 := runExports_sinkInv seqName hypo calls _ _ hrun hinit.1
  obtain ⟨file, hf, hname, hne, hhead, hrows⟩ := hrun2.1
  refine ⟨hrun2.2.trans hinit.2, rfl, rfl, rfl, file, hf, ?_, hhead, hrows⟩
  exact hname

/-- Witness for C7: a two-hypothesis exporter after opening sequence
0001 and one successful export call satisfies the format contract for
hypothesis 1. -/
theorem claim_C7_witness :
    ∃ st2, runExports (initSequenceFiles ⟨"out", 2, []⟩ "0001") [c7DemoCall] = some st2
      ∧ (st2.files.length = 2
        ∧ csvHeader.length = 18
        ∧ String.intercalate "," csvHeader =
            "frame,track_id,object_type,truncated,occluded,alpha,bbox_left,bbox_top,bbox_right,bbox_bottom,height_3d,width_3d,length_3d,x_3d,y_3d,z_3d,rotation_y,confidence_score"
        ∧ csvEncoding = "utf-8"
        ∧ ∃ file, findFile st2.files 1 = some file
            ∧ file.name = "tracking_results_H" ++ toString 1 ++ "_" ++ "0001" ++ ".csv"
            ∧ file.rows.headD [] = headerCells
            ∧ ∀ row ∈ file.rows.tail,
                row.getD 3 (.q 0) = Cell.i 0 ∧ row.getD 4 (.q 0) = Cell.i 0) := by
  refine ⟨_, rfl, ?_⟩
  exact claim_C7_csv_format ⟨"out", 2, []⟩ "0001" [c7DemoCall] 1 _ (by decide) rfl

end AB3DMOT
